import Mathlib

/-!
Verification of the go-pff PFF/PST reader core: a shallow embedding of the
byte source (`PFF.Read`), the header readers, the index b-tree page reader
and walker (`GetBTreeNodeEntries`, `FindBTreeNode`), and the local-descriptor
resolution (`GetLocalDescriptors`), translated from the Go sources
`pkg/btree.go` and the parser file defining `PFF.Read` and `GetFormatType`.

Modelling conventions:
* a Go byte slice is a `List Nat`; byte values are reduced mod 256 where the
  Go code reads fixed-width integers, matching the `byte` type;
* Go `int` is `Int` (64-bit two's-complement wrap is applied where the code
  converts a `uint64`);
* a Go function returning `(T, error)` becomes `Except RunError T`; a Go
  runtime fault (slice bounds out of range) is the distinguished
  `RunError.runtimeFault`, separate from `error` values the code returns;
  unbounded recursion is cut by an explicit fuel counter whose exhaustion is
  `RunError.outOfFuel`;
* a Go sub-slice keeps capacity up to the end of its backing buffer, and a
  reslice `s[a:b]` is legal whenever `b ≤ cap(s)` even if `b > len(s)`; entry
  values therefore carry both the visible bytes (`data`, the Go slice
  contents) and the capacity view (`dataCap`, the backing bytes from the
  slice start to the end of the page buffer).
-/

set_option maxRecDepth 100000

namespace GoPff

/-- Failure outcomes of the embedded Go code: `invalidSeek` models
`os.File.Seek` rejecting a negative offset, `eof` models `io.EOF` from a read
at or past end of file, `goMsg s` models `errors.New(s)`, `runtimeFault`
models a Go runtime fault (slice bounds out of range), and `outOfFuel` marks
recursion beyond the explicit fuel bound. -/
inductive RunError where
  | invalidSeek : RunError
  | eof : RunError
  | goMsg : String → RunError
  | runtimeFault : String → RunError
  | outOfFuel : RunError
deriving DecidableEq

/-- Result type of an embedded Go function returning `(T, error)`. -/
abbrev GoRes (α : Type) := Except RunError α

instance {α : Type} [DecidableEq α] : DecidableEq (GoRes α) := fun a b =>
  match a, b with
  | .ok x, .ok y => if h : x = y then .isTrue (by rw [h]) else .isFalse (by
      intro hc
      exact h (Except.ok.inj hc))
  | .error x, .error y => if h : x = y then .isTrue (by rw [h]) else .isFalse (by
      intro hc
      exact h (Except.error.inj hc))
  | .ok _, .error _ => .isFalse (by intro hc
                                    exact Except.noConfusion hc)
  | .error _, .ok _ => .isFalse (by intro hc
                                    exact Except.noConfusion hc)

/-- Little-endian value of a byte list; each element is reduced mod 256,
matching the range of the Go `byte` type. -/
def leBytes : List Nat → Nat
  | [] => 0
  | b :: bs => b % 256 + 256 * leBytes bs

/-- Value of `binary.LittleEndian.Uint16([]byte{b, 0})` as used throughout
the Go sources to widen a single byte: the little-endian value of the first
byte. -/
def u8val (bs : List Nat) : Nat := leBytes (bs.take 1)

/-- `binary.LittleEndian.Uint16` of the first two bytes. -/
def u16val (bs : List Nat) : Nat := leBytes (bs.take 2)

/-- `binary.LittleEndian.Uint32` of the first four bytes. -/
def u32val (bs : List Nat) : Nat := leBytes (bs.take 4)

/-- `binary.LittleEndian.Uint64` of the first eight bytes. -/
def u64val (bs : List Nat) : Nat := leBytes (bs.take 8)

/-- The Go conversion `int(x)` for `x : uint64`: 64-bit two's-complement
reinterpretation. -/
def toInt64 (n : Nat) : Int :=
  if n % 2 ^ 64 < 2 ^ 63 then ((n % 2 ^ 64 : Nat) : Int)
  else ((n % 2 ^ 64 : Nat) : Int) - 2 ^ 64

/-- Format-type constant `FormatType32` from the parser file. -/
def FormatType32 : String := "32-bit"

/-- Format-type constant `FormatType64` from the parser file. -/
def FormatType64 : String := "64-bit"

/-- Format-type constant `FormatType64With4k` from the parser file. -/
def FormatType64With4k : String := "64-bit-with-4k"

/-- `PFF.Read(outputBufferSize, offset)`: opens the file, seeks to `offset`,
reads into a fresh buffer of `outputBufferSize` bytes and returns it. The Go
code discards the byte count returned by `File.Read`, so when fewer than
`outputBufferSize` bytes are available past `offset` the missing tail of the
buffer stays zero and no error is reported; `File.Read` reports `io.EOF`
only when zero bytes are available (and the buffer is non-empty), and
`Seek` fails on a negative offset. -/
def pffRead (file : List Nat) (outputBufferSize : Nat) (offset : Int) : GoRes (List Nat) :=
  if offset < 0 then .error .invalidSeek
  else if outputBufferSize = 0 then .ok []
  else if file.length ≤ offset.toNat then .error .eof
  else .ok ((file.drop offset.toNat).take outputBufferSize ++
    List.replicate (outputBufferSize - (file.length - offset.toNat)) 0)

/-- `PFF.GetFormatType(header)`: reads the little-endian u16 at bytes 10..12
of the header and maps codes 14/15 to 32-bit, 21/23 to 64-bit and 36 to
64-bit-with-4k, failing on every other code. The slice `header[10:12]`
faults when the header holds fewer than 12 bytes. -/
def getFormatType (header : List Nat) : GoRes String :=
  if header.length < 12 then .error (.runtimeFault "slice bounds out of range")
  else
    let formatType := u16val (header.drop 10)
    if formatType = 14 ∨ formatType = 15 then .ok FormatType32
    else if formatType = 21 ∨ formatType = 23 then .ok FormatType64
    else if formatType = 36 then .ok FormatType64With4k
    else .error (.goMsg "failed to get format type")

/-- `BTreeNode`: a branch or leaf node of the index b-tree, identified by
its start offset in the file. -/
structure BTreeNode where
  startOffset : Int
deriving DecidableEq

/-- `BTreeNodeEntry`: a parsed node entry. `identifier` and `data` are the
struct fields of the Go type (`data` being the visible contents of the
`Data` slice); `dataCap` is the capacity view of the `Data` slice — the
backing page bytes from the entry start to the end of the page buffer —
which Go reslicing such as `Data[16:24]` may legally reach. -/
structure BTreeNodeEntry where
  identifier : Int
  data : List Nat
  dataCap : List Nat
deriving DecidableEq

/-- The zero value `BTreeNodeEntry{}` returned by `FindBTreeNode` when the
walk falls through (identifier not present) or when a recursive error is
swallowed; its `Data` slice is nil. -/
def zeroBTreeNodeEntry : BTreeNodeEntry := ⟨0, [], []⟩

/-- `PFF.GetNodeBTree(formatType)`: reads the NBT root offset from the
header (8 bytes at 224 for the 64-bit profiles, 4 bytes at 188 for 32-bit). -/
def getNodeBTree (file : List Nat) (formatType : String) : GoRes BTreeNode :=
  if formatType = FormatType64 ∨ formatType = FormatType64With4k then
    match pffRead file 8 224 with
    | .error e => .error e
    | .ok offset => .ok ⟨toInt64 (u64val offset)⟩
  else if formatType = FormatType32 then
    match pffRead file 4 188 with
    | .error e => .error e
    | .ok offset => .ok ⟨(u32val offset : Int)⟩
  else .error (.goMsg "unsupported format type")

/-- `PFF.GetBlockBTree(formatType)`: reads the BBT root offset from the
header (8 bytes at 240 for the 64-bit profiles, 4 bytes at 196 for 32-bit). -/
def getBlockBTree (file : List Nat) (formatType : String) : GoRes BTreeNode :=
  if formatType = FormatType64 ∨ formatType = FormatType64With4k then
    match pffRead file 8 240 with
    | .error e => .error e
    | .ok offset => .ok ⟨toInt64 (u64val offset)⟩
  else if formatType = FormatType32 then
    match pffRead file 4 196 with
    | .error e => .error e
    | .ok offset => .ok ⟨(u32val offset : Int)⟩
  else .error (.goMsg "unsupported format type")

/-- `PFF.GetBTreeNodeEntryCount`: one byte at start+488 (64-bit), a u16 at
start+4056 (64-bit-with-4k) or one byte at start+496 (32-bit), widened as in
the source via `Uint16([]byte{b, 0})`. -/
def getBTreeNodeEntryCount (file : List Nat) (formatType : String) (btreeNode : BTreeNode) : GoRes Nat :=
  if formatType = FormatType64 then
    match pffRead file 1 (btreeNode.startOffset + 488) with
    | .error e => .error e
    | .ok entryCount => .ok (u8val entryCount)
  else if formatType = FormatType64With4k then
    match pffRead file 2 (btreeNode.startOffset + 4056) with
    | .error e => .error e
    | .ok entryCount => .ok (u16val entryCount)
  else if formatType = FormatType32 then
    match pffRead file 1 (btreeNode.startOffset + 496) with
    | .error e => .error e
    | .ok entryCount => .ok (u8val entryCount)
  else .error (.goMsg "unsupported format type")

/-- `PFF.GetBTreeNodeEntrySize`: one byte at start+490 / start+4060 /
start+498 for the 64-bit / 64-bit-with-4k / 32-bit profiles. -/
def getBTreeNodeEntrySize (file : List Nat) (formatType : String) (btreeNode : BTreeNode) : GoRes Nat :=
  if formatType = FormatType64 then
    match pffRead file 1 (btreeNode.startOffset + 490) with
    | .error e => .error e
    | .ok entrySize => .ok (u8val entrySize)
  else if formatType = FormatType64With4k then
    match pffRead file 1 (btreeNode.startOffset + 4060) with
    | .error e => .error e
    | .ok entrySize => .ok (u8val entrySize)
  else if formatType = FormatType32 then
    match pffRead file 1 (btreeNode.startOffset + 498) with
    | .error e => .error e
    | .ok entrySize => .ok (u8val entrySize)
  else .error (.goMsg "unsupported format type")

/-- `PFF.GetBTreeNodeLevel`: one byte at start+491 / start+4061 / start+499;
zero marks a leaf node, anything greater a branch node. -/
def getBTreeNodeLevel (file : List Nat) (formatType : String) (btreeNode : BTreeNode) : GoRes Nat :=
  if formatType = FormatType64 then
    match pffRead file 1 (btreeNode.startOffset + 491) with
    | .error e => .error e
    | .ok nodeLevel => .ok (u8val nodeLevel)
  else if formatType = FormatType64With4k then
    match pffRead file 1 (btreeNode.startOffset + 4061) with
    | .error e => .error e
    | .ok nodeLevel => .ok (u8val nodeLevel)
  else if formatType = FormatType32 then
    match pffRead file 1 (btreeNode.startOffset + 499) with
    | .error e => .error e
    | .ok nodeLevel => .ok (u8val nodeLevel)
  else .error (.goMsg "unsupported format type")

/-- `PFF.GetBTreeNodePageType`: one byte at start+496 / start+4072 /
start+500 for the three profiles. -/
def getBTreeNodePageType (file : List Nat) (formatType : String) (btreeNode : BTreeNode) : GoRes Nat :=
  if formatType = FormatType64 then
    match pffRead file 1 (btreeNode.startOffset + 496) with
    | .error e => .error e
    | .ok pageType => .ok (u8val pageType)
  else if formatType = FormatType64With4k then
    match pffRead file 1 (btreeNode.startOffset + 4072) with
    | .error e => .error e
    | .ok pageType => .ok (u8val pageType)
  else if formatType = FormatType32 then
    match pffRead file 1 (btreeNode.startOffset + 500) with
    | .error e => .error e
    | .ok pageType => .ok (u8val pageType)
  else .error (.goMsg "unsupported format type")

/-- `PFF.GetBTreeBranchNodeEntryOffset(formatType, nodeEntry)`: the child
file offset of a branch entry, `Uint64(nodeEntry[16:24])` on the 64-bit
profiles and `Uint32(nodeEntry[8:12])` on 32-bit. The argument is the
capacity view of the entry's `Data` slice, since the Go reslice is bounded
by capacity; it faults when the reslice exceeds it. -/
def getBTreeBranchNodeEntryOffset (formatType : String) (nodeEntry : List Nat) : GoRes Int :=
  if formatType = FormatType64 ∨ formatType = FormatType64With4k then
    if nodeEntry.length < 24 then .error (.runtimeFault "slice bounds out of range")
    else .ok (toInt64 (u64val (nodeEntry.drop 16)))
  else if formatType = FormatType32 then
    if nodeEntry.length < 12 then .error (.runtimeFault "slice bounds out of range")
    else .ok ((u32val (nodeEntry.drop 8) : Int))
  else .error (.goMsg "unsupported format type")

/-- The entry loop of `PFF.GetBTreeNodeEntries`: for `i` from the given
index, slice `nodeEntries[i*size : i*size+size]` and read the identifier as
`Uint32(nodeEntry[:8])`. Both slice expressions are bounded by the capacity
of the page buffer (its full length), so the loop faults when
`i*size+size` or `i*size+8` exceeds it. The source runs the same body for
branch and leaf nodes. `k` counts the remaining iterations. -/
def parseBTreeNodeEntries (nodeEntries : List Nat) (nodeEntrySize : Nat) :
    Nat → Nat → GoRes (List BTreeNodeEntry)
  | 0, _ => .ok []
  | k + 1, i =>
    if nodeEntries.length < i * nodeEntrySize + nodeEntrySize then
      .error (.runtimeFault "slice bounds out of range")
    else if nodeEntries.length < i * nodeEntrySize + 8 then
      .error (.runtimeFault "slice bounds out of range")
    else
      let nodeEntryCap := nodeEntries.drop (i * nodeEntrySize)
      let entry : BTreeNodeEntry :=
        ⟨(u32val nodeEntryCap : Int), nodeEntryCap.take nodeEntrySize, nodeEntryCap⟩
      match parseBTreeNodeEntries nodeEntries nodeEntrySize k (i + 1) with
      | .error e => .error e
      | .ok rest => .ok (entry :: rest)

/-- `PFF.GetBTreeNodeEntries(formatType, btreeNode)`: reads the page entry
area (488 / 4056 / 496 bytes at the node start), then entry count, entry
size, node level and page type, and parses `entryCount` entries of
`entrySize` bytes each. The node level only selects between two identical
loop bodies in the source, and the page-type value is discarded (only the
error of its read is checked). -/
def getBTreeNodeEntries (file : List Nat) (formatType : String) (btreeNode : BTreeNode) :
    GoRes (List BTreeNodeEntry) :=
  let pageRead : GoRes (List Nat) :=
    if formatType = FormatType64 then pffRead file 488 btreeNode.startOffset
    else if formatType = FormatType64With4k then pffRead file 4056 btreeNode.startOffset
    else if formatType = FormatType32 then pffRead file 496 btreeNode.startOffset
    else .error (.goMsg "unsupported format type")
  match pageRead with
  | .error e => .error e
  | .ok nodeEntries =>
    match getBTreeNodeEntryCount file formatType btreeNode with
    | .error e => .error e
    | .ok nodeEntryCount =>
      match getBTreeNodeEntrySize file formatType btreeNode with
      | .error e => .error e
      | .ok nodeEntrySize =>
        match getBTreeNodeLevel file formatType btreeNode with
        | .error e => .error e
        | .ok _nodeLevel =>
          match getBTreeNodePageType file formatType btreeNode with
          | .error e => .error e
          | .ok _pageType =>
            parseBTreeNodeEntries nodeEntries nodeEntrySize nodeEntryCount 0

/-- The leaf loop of `PFF.FindBTreeNode`: return the first entry whose
identifier equals the search identifier, or the zero entry after the loop. -/
def findLeafScan (identifier : Int) : List BTreeNodeEntry → GoRes BTreeNodeEntry
  | [] => .ok zeroBTreeNodeEntry
  | e :: rest =>
    if e.identifier = identifier then .ok e else findLeafScan identifier rest

/-- The branch loop of `PFF.FindBTreeNode`: for each branch entry in order,
return it if its identifier equals the search identifier; otherwise read the
child offset and recurse (`recurse` is the recursive call at one less fuel).
An error from the recursive call is swallowed: the source returns
`BTreeNodeEntry{}, nil` there. A recursive result bearing the search
identifier is returned; otherwise the loop continues, and falls through to
the zero entry. -/
def findBranchScan (formatType : String) (identifier : Int)
    (recurse : BTreeNode → GoRes BTreeNodeEntry) :
    List BTreeNodeEntry → GoRes BTreeNodeEntry
  | [] => .ok zeroBTreeNodeEntry
  | e :: rest =>
    if e.identifier = identifier then .ok e
    else
      match getBTreeBranchNodeEntryOffset formatType e.dataCap with
      | .error er => .error er
      | .ok off =>
        match recurse ⟨off⟩ with
        | .error _ => .ok zeroBTreeNodeEntry
        | .ok e2 =>
          if e2.identifier = identifier then .ok e2
          else findBranchScan formatType identifier recurse rest

/-- `PFF.FindBTreeNode(formatType, btreeNode, identifier)`: parse the node's
entries and level, then run the branch loop (level > 0) or the leaf loop
(level = 0). The fuel counter bounds the recursion depth of the shallow
embedding; the Go original recurses without bound. -/
def findBTreeNode (file : List Nat) (formatType : String) (btreeNode : BTreeNode)
    (identifier : Int) : Nat → GoRes BTreeNodeEntry
  | 0 => .error .outOfFuel
  | fuel + 1 =>
    match getBTreeNodeEntries file formatType btreeNode with
    | .error e => .error e
    | .ok entries =>
      match getBTreeNodeLevel file formatType btreeNode with
      | .error e => .error e
      | .ok level =>
        if 0 < level then
          findBranchScan formatType identifier
            (fun nd => findBTreeNode file formatType nd identifier fuel) entries
        else findLeafScan identifier entries

/-- `BTreeNodeEntry.GetLocalDescriptorsIdentifier(formatType)`: the
local-descriptors search identifier of an NBT leaf entry,
`Uint64(Data[16:24])` on 64-bit profiles and `Uint32(Data[8:12])` on
32-bit; the reslice is bounded by the Data slice's capacity. -/
def getLocalDescriptorsIdentifier (btreeNodeEntry : BTreeNodeEntry) (formatType : String) : GoRes Int :=
  if formatType = FormatType64 ∨ formatType = FormatType64With4k then
    if btreeNodeEntry.dataCap.length < 24 then .error (.runtimeFault "slice bounds out of range")
    else .ok (toInt64 (u64val (btreeNodeEntry.dataCap.drop 16)))
  else if formatType = FormatType32 then
    if btreeNodeEntry.dataCap.length < 12 then .error (.runtimeFault "slice bounds out of range")
    else .ok ((u32val (btreeNodeEntry.dataCap.drop 8) : Int))
  else .error (.goMsg "unsupported format type")

/-- `BTreeNodeEntry.GetFileOffset(formatType)`: the file offset of a BBT
entry, `Uint64(Data[8:16])` on 64-bit profiles and `Uint32(Data[4:8])` on
32-bit; the reslice is bounded by the Data slice's capacity (for the zero
entry the Data slice is nil, so any such reslice faults). -/
def getFileOffset (btreeNodeEntry : BTreeNodeEntry) (formatType : String) : GoRes Int :=
  if formatType = FormatType64 ∨ formatType = FormatType64With4k then
    if btreeNodeEntry.dataCap.length < 16 then .error (.runtimeFault "slice bounds out of range")
    else .ok (toInt64 (u64val (btreeNodeEntry.dataCap.drop 8)))
  else if formatType = FormatType32 then
    if btreeNodeEntry.dataCap.length < 8 then .error (.runtimeFault "slice bounds out of range")
    else .ok ((u32val (btreeNodeEntry.dataCap.drop 4) : Int))
  else .error (.goMsg "unsupported format type")

/-- `PFF.GetLocalDescriptorsSignature`: one byte at the local descriptors
start offset. -/
def getLocalDescriptorsSignature (file : List Nat) (startOffset : Int) : GoRes Nat :=
  match pffRead file 1 startOffset with
  | .error e => .error e
  | .ok signature => .ok (u8val signature)

/-- `PFF.GetLocalDescriptors(formatType, btreeNodeEntry)`: reads the entry's
local-descriptors identifier, resolves it against the Block B-Tree with
`FindBTreeNode` — passing the identifier unchanged as the search key — then
reads the found entry's file offset and checks the one-byte signature there
equals 2. -/
def getLocalDescriptors (file : List Nat) (formatType : String)
    (btreeNodeEntry : BTreeNodeEntry) (fuel : Nat) : GoRes Unit :=
  match getLocalDescriptorsIdentifier btreeNodeEntry formatType with
  | .error e => .error e
  | .ok localDescriptorsIdentifier =>
    match getBlockBTree file formatType with
    | .error e => .error e
    | .ok blockBTree =>
      match findBTreeNode file formatType blockBTree localDescriptorsIdentifier fuel with
      | .error e => .error e
      | .ok localDescriptorsNode =>
        match getFileOffset localDescriptorsNode formatType with
        | .error e => .error e
        | .ok localDescriptorsOffset =>
          match getLocalDescriptorsSignature file localDescriptorsOffset with
          | .error e => .error e
          | .ok localDescriptorsSignature =>
            if localDescriptorsSignature ≠ 2 then
              .error (.goMsg "invalid local descriptors signature")
            else .ok ()

/-- The mask `id & ^1` on a Go two's-complement integer: clear the low bit. -/
def maskLowBit (identifier : Int) : Int := identifier - identifier.emod 2

/-- Modelled from the spec: `resolveBlock(id) = bbtWalker.find(bbtRoot, id & ~1)`
— the block-resolution step of `GetLocalDescriptors` as section 4.5 of the
spec describes it, identical to `getLocalDescriptors` except that the low
bit of the identifier is masked off before it is used as the BBT search
key. The code under `src/` passes the identifier unmasked; this definition
exists to compare the two. -/
def getLocalDescriptorsMasked (file : List Nat) (formatType : String)
    (btreeNodeEntry : BTreeNodeEntry) (fuel : Nat) : GoRes Unit :=
  match getLocalDescriptorsIdentifier btreeNodeEntry formatType with
  | .error e => .error e
  | .ok localDescriptorsIdentifier =>
    match getBlockBTree file formatType with
    | .error e => .error e
    | .ok blockBTree =>
      match findBTreeNode file formatType blockBTree
          (maskLowBit localDescriptorsIdentifier) fuel with
      | .error e => .error e
      | .ok localDescriptorsNode =>
        match getFileOffset localDescriptorsNode formatType with
        | .error e => .error e
        | .ok localDescriptorsOffset =>
          match getLocalDescriptorsSignature file localDescriptorsOffset with
          | .error e => .error e
          | .ok localDescriptorsSignature =>
            if localDescriptorsSignature ≠ 2 then
              .error (.goMsg "invalid local descriptors signature")
            else .ok ()

/-- Modelled from the spec: among the entries whose key is at most the
search key, the one with the greatest key (the predecessor-search child of
section 4.4 of the spec). -/
def specPickChild (identifier : Int) (entries : List BTreeNodeEntry) : Option BTreeNodeEntry :=
  entries.foldl
    (fun best e =>
      if e.identifier ≤ identifier then
        match best with
        | none => some e
        | some b => if b.identifier ≤ e.identifier then some e else some b
      else best)
    none

/-- Modelled from the spec: the last-≤ branch descent of section 4.4 —
`find(root, key)` loads the page, descends into exactly one child per
branch level (the entry with the greatest key ≤ the search key, `NotFound`
when the leftmost key already exceeds it), and at a leaf returns the unique
entry with the exact key or `NotFound` (`none`). It reuses the page reader
of the source so that only the descent strategy differs from
`findBTreeNode`. -/
def findBTreeNodeSpec (file : List Nat) (formatType : String) (btreeNode : BTreeNode)
    (identifier : Int) : Nat → GoRes (Option BTreeNodeEntry)
  | 0 => .error .outOfFuel
  | fuel + 1 =>
    match getBTreeNodeEntries file formatType btreeNode with
    | .error e => .error e
    | .ok entries =>
      match getBTreeNodeLevel file formatType btreeNode with
      | .error e => .error e
      | .ok level =>
        if 0 < level then
          match specPickChild identifier entries with
          | none => .ok none
          | some e =>
            match getBTreeBranchNodeEntryOffset formatType e.dataCap with
            | .error er => .error er
            | .ok off => findBTreeNodeSpec file formatType ⟨off⟩ identifier fuel
        else .ok (entries.find? (fun e => e.identifier == identifier))

/-- A sequence of lookups against one file: each result is the lookup of its
identifier. Models running `FindBTreeNode` repeatedly against the same
file, in order. -/
def lookupMany (file : List Nat) (formatType : String) (btreeNode : BTreeNode)
    (identifiers : List Int) (fuel : Nat) : List (GoRes BTreeNodeEntry) :=
  identifiers.map (fun identifier => findBTreeNode file formatType btreeNode identifier fuel)

/-- Little-endian encoding of a value into the given number of bytes. -/
def leEnc (width value : Nat) : List Nat :=
  (List.range width).map (fun i => value / 256 ^ i % 256)

/-- Pad a byte list with zeros up to the given length. -/
def padTo (n : Nat) (bytes : List Nat) : List Nat :=
  bytes ++ List.replicate (n - bytes.length) 0

/-- A 64-bit-profile b-tree page image: 488 bytes of entry area followed by
the footer fields entry count (488), maximum entry count (489), entry size
(490), node level (491), four padding bytes and the page type (496). -/
def page64 (entryBytes : List Nat) (count size level ptype : Nat) : List Nat :=
  padTo 488 entryBytes ++ [count, 0, size, level, 0, 0, 0, 0, ptype]

/-- Test file: a 64-bit branch page at offset 0 with keys 10 and 20 whose
children are leaf pages at offsets 500 (holding key 11) and 1000 (holding
key 15). A search for 15 under last-≤ descent may only enter the child of
key 10; the entry with identifier 15 sits under the key-20 sibling. -/
def cf1 : List Nat :=
  padTo 500 (page64 (leEnc 4 10 ++ List.replicate 12 0 ++ leEnc 8 500 ++
                     leEnc 4 20 ++ List.replicate 12 0 ++ leEnc 8 1000) 2 24 1 129) ++
  padTo 500 (page64 (leEnc 4 11 ++ List.replicate 20 0) 1 24 0 129) ++
  page64 (leEnc 4 15 ++ List.replicate 20 0) 1 24 0 129

/-- The page buffer of the branch page of `cf1`. -/
def cf1page0 : List Nat := cf1.take 488

/-- The page buffer of the leaf page of `cf1` at offset 1000. -/
def cf1page1000 : List Nat := (cf1.drop 1000).take 488

/-- The first branch entry of `cf1` (key 10) as parsed by the page reader. -/
def cf1e10 : BTreeNodeEntry := ⟨10, cf1page0.take 24, cf1page0⟩

/-- The second branch entry of `cf1` (key 20) as parsed by the page reader. -/
def cf1e20 : BTreeNodeEntry := ⟨20, (cf1page0.drop 24).take 24, cf1page0.drop 24⟩

/-- The leaf entry with identifier 15 of `cf1` as parsed by the page reader. -/
def cf1e15 : BTreeNodeEntry := ⟨15, cf1page1000.take 24, cf1page1000⟩

/-- Test file: a 64-bit branch page at offset 0 whose single entry (key 10)
points at file offset 100000, far past end of file, so the recursive
descent under it fails with an end-of-file read error. -/
def cf2 : List Nat :=
  page64 (leEnc 4 10 ++ List.replicate 12 0 ++ leEnc 8 100000) 1 24 1 129

/-- Test file: a 64-bit leaf page at offset 0 holding the single
identifier 7. -/
def cf3 : List Nat := page64 (leEnc 4 7 ++ List.replicate 20 0) 1 24 0 129

/-- The page buffer of `cf3`. -/
def cf3page : List Nat := cf3.take 488

/-- The leaf entry with identifier 7 of `cf3` as parsed by the page reader. -/
def cf3e7 : BTreeNodeEntry := ⟨7, cf3page.take 24, cf3page⟩

/-- Test file: a 64-bit leaf page declaring 30 entries of 24 bytes each —
720 bytes, overflowing the 488-byte entry area. -/
def cf4 : List Nat := page64 [] 30 24 0 129

/-- The page buffer of `cf4`. -/
def cf4page : List Nat := cf4.take 488

/-- Test file: a 64-bit leaf page holding identifier 7 whose page-type byte
is 0 — neither the NBT page type 0x81 nor the BBT page type 0x80. -/
def cf5 : List Nat := page64 (leEnc 4 7 ++ List.replicate 20 0) 1 24 0 0

/-- Test file for block resolution: the header's BBT root offset (bytes
240..248) points at a BBT leaf page at offset 500 whose single entry has
the even block identifier 42 and file offset 1000; the byte at offset 1000
is the local-descriptors signature 2. -/
def cf7 : List Nat :=
  padTo 500 (List.replicate 240 0 ++ leEnc 8 500) ++
  padTo 500 (page64 (leEnc 4 42 ++ List.replicate 4 0 ++ leEnc 8 1000 ++
                     List.replicate 8 0) 1 24 0 128) ++
  [2]

/-- An NBT leaf entry whose local-descriptors identifier (Data bytes 16..24)
is the odd value 43 = 42 with the low internal-block bit set. -/
def cf7entryOdd : BTreeNodeEntry :=
  ⟨290, List.replicate 16 0 ++ leEnc 8 43, List.replicate 16 0 ++ leEnc 8 43⟩

/-- An NBT leaf entry whose local-descriptors identifier is the even
value 42. -/
def cf7entryEven : BTreeNodeEntry :=
  ⟨290, List.replicate 16 0 ++ leEnc 8 42, List.replicate 16 0 ++ leEnc 8 42⟩

/-- Test file: a 64-bit leaf page whose single entry has the eight-byte
little-endian identifier 2^32 = 4294967296 (bytes 0,0,0,0,1,0,0,0). -/
def cf8 : List Nat :=
  page64 ([0, 0, 0, 0, 1, 0, 0, 0] ++ List.replicate 16 0) 1 24 0 129

/-- A 12-byte header whose format-type code (bytes 10..12) is 23. -/
def c9header : List Nat := List.replicate 10 0 ++ [23, 0]

/-- The identifier of a successful lookup result, `none` on error. -/
def okIdentifier (r : GoRes BTreeNodeEntry) : Option Int :=
  match r with
  | .ok e => some e.identifier
  | .error _ => none

/-- The identifiers of a parsed entry list, `none` on error. -/
def okIdentifiers (r : GoRes (List BTreeNodeEntry)) : Option (List Int) :=
  match r with
  | .ok es => some (es.map (fun e => e.identifier))
  | .error _ => none

/-- The eight-byte little-endian value at the start of the first parsed
entry, `none` on error or when no entry was parsed. -/
def okFirstEntryU64 (r : GoRes (List BTreeNodeEntry)) : Option Nat :=
  match r with
  | .ok (e :: _) => some (u64val e.dataCap)
  | _ => none

/-! Helper lemmas. -/

theorem pffRead_ok_length {file : List Nat} {n : Nat} {off : Int} {bs : List Nat}
    (h : pffRead file n off = .ok bs) : bs.length = n := by
  unfold pffRead at h
  split_ifs at h with h1 h2 h3
  · injection h with h'
    subst h'
    simp [h2]
  · injection h with h'
    subst h'
    simp only [List.length_append, List.length_take, List.length_replicate,
      List.length_drop]
    omega

theorem leBytes_lt (bs : List Nat) : leBytes bs < 256 ^ bs.length := by
  induction bs with
  | nil => simp [leBytes]
  | cons b rest ih =>
    simp only [leBytes, List.length_cons, pow_succ]
    have hb : b % 256 < 256 := Nat.mod_lt _ (by omega)
    omega

theorem u32val_lt (bs : List Nat) : u32val bs < 2 ^ 32 := by
  have h1 := leBytes_lt (bs.take 4)
  have h2 : (bs.take 4).length ≤ 4 := by
    simp [List.length_take]
  have h3 : 256 ^ (bs.take 4).length ≤ 256 ^ 4 :=
    Nat.pow_le_pow_right (by omega) h2
  have : (256 : Nat) ^ 4 = 2 ^ 32 := by norm_num
  unfold u32val
  omega

theorem parseBTreeNodeEntries_shape (page : List Nat) (s : Nat) :
    ∀ k i es, parseBTreeNodeEntries page s k i = .ok es →
      ∀ e ∈ es, e.identifier = (u32val e.dataCap : Int) ∧
        e.data = e.dataCap.take s ∧ 8 ≤ e.dataCap.length := by
  intro k
  induction k with
  | zero =>
    intro i es h e he
    unfold parseBTreeNodeEntries at h
    obtain rfl : ([] : List BTreeNodeEntry) = es := Except.ok.inj h
    simp at he
  | succ k ih =>
    intro i es h e he
    unfold parseBTreeNodeEntries at h
    split_ifs at h with h1 h2
    cases hrec : parseBTreeNodeEntries page s k (i + 1) with
      | error e' => rw [hrec] at h; simp at h
      | ok rest =>
        rw [hrec] at h
        simp only at h
        obtain rfl := (Except.ok.inj h).symm
        rcases List.mem_cons.mp he with rfl | hmem
        · refine ⟨rfl, rfl, ?_⟩
          simp only [List.length_drop]
          omega
        · exact ih (i + 1) rest hrec e hmem

theorem parseBTreeNodeEntries_fault (page : List Nat) (s : Nat) :
    ∀ k i, (∃ j, i ≤ j ∧ j < i + k ∧
        (page.length < j * s + s ∨ page.length < j * s + 8)) →
      parseBTreeNodeEntries page s k i =
        .error (.runtimeFault "slice bounds out of range") := by
  intro k
  induction k with
  | zero =>
    rintro i ⟨j, hj1, hj2, _⟩
    omega
  | succ k ih =>
    rintro i ⟨j, hj1, hj2, hcond⟩
    unfold parseBTreeNodeEntries
    by_cases h1 : page.length < i * s + s
    · rw [if_pos h1]
    · rw [if_neg h1]
      by_cases h2 : page.length < i * s + 8
      · rw [if_pos h2]
      · rw [if_neg h2]
        rcases Nat.eq_or_lt_of_le hj1 with rfl | hlt
        · omega
        · have hrec := ih (i + 1) ⟨j, by omega, by omega, hcond⟩
          simp [hrec]

theorem findLeafScan_ok (identifier : Int) :
    ∀ es e, findLeafScan identifier es = .ok e →
      e = zeroBTreeNodeEntry ∨ (e ∈ es ∧ e.identifier = identifier) := by
  intro es
  induction es with
  | nil =>
    intro e h
    unfold findLeafScan at h
    exact Or.inl (Except.ok.inj h).symm
  | cons a rest ih =>
    intro e h
    unfold findLeafScan at h
    split_ifs at h with ha
    · obtain rfl := Except.ok.inj h
      exact Or.inr ⟨List.mem_cons_self _ _, ha⟩
    · rcases ih e h with h1 | ⟨h2, h3⟩
      · exact Or.inl h1
      · exact Or.inr ⟨List.mem_cons_of_mem a h2, h3⟩

theorem findBranchScan_ok (formatType : String) (identifier : Int)
    (recurse : BTreeNode → GoRes BTreeNodeEntry)
    (hrec : ∀ nd e', recurse nd = .ok e' →
      e' = zeroBTreeNodeEntry ∨ (e'.identifier = identifier ∧ 8 ≤ e'.dataCap.length)) :
    ∀ es, (∀ e' ∈ es, 8 ≤ e'.dataCap.length) →
      ∀ e, findBranchScan formatType identifier recurse es = .ok e →
        e = zeroBTreeNodeEntry ∨ (e.identifier = identifier ∧ 8 ≤ e.dataCap.length) := by
  intro es
  induction es with
  | nil =>
    intro _ e h
    unfold findBranchScan at h
    exact Or.inl (Except.ok.inj h).symm
  | cons a rest ih =>
    intro hlen e h
    unfold findBranchScan at h
    split_ifs at h with ha
    · obtain rfl := Except.ok.inj h
      exact Or.inr ⟨ha, hlen _ (List.mem_cons_self _ _)⟩
    · cases hoff : getBTreeBranchNodeEntryOffset formatType a.dataCap with
      | error er => rw [hoff] at h; simp at h
      | ok off =>
        rw [hoff] at h
        simp only at h
        cases hr : recurse ⟨off⟩ with
        | error er =>
          rw [hr] at h
          simp only at h
          exact Or.inl (Except.ok.inj h).symm
        | ok e2 =>
          rw [hr] at h
          simp only at h
          split_ifs at h with h2
          · obtain rfl := Except.ok.inj h
            exact hrec _ _ hr
          · exact ih (fun e' he' => hlen e' (List.mem_cons_of_mem a he')) e h

theorem getBTreeNodeEntries_shape {file : List Nat} {formatType : String}
    {btreeNode : BTreeNode} {es : List BTreeNodeEntry}
    (h : getBTreeNodeEntries file formatType btreeNode = .ok es) :
    ∀ e ∈ es, e.identifier = (u32val e.dataCap : Int) ∧ 8 ≤ e.dataCap.length := by
  intro e he
  have hex : ∃ page c s, parseBTreeNodeEntries page s c 0 = .ok es := by
    unfold getBTreeNodeEntries at h
    repeat'
      first
        | exact ⟨_, _, _, h⟩
        | split at h
        | simp at h
  obtain ⟨page, c, s, hp⟩ := hex
  have := parseBTreeNodeEntries_shape page s c 0 es hp e he
  exact ⟨this.1, this.2.2⟩

theorem findBranchScan_first_success (formatType : String) (identifier : Int)
    (recurse : BTreeNode → GoRes BTreeNodeEntry) :
    ∀ (es₁ es₂ : List BTreeNodeEntry) (e r : BTreeNodeEntry) (off : Int),
    (∀ e' ∈ es₁, e'.identifier ≠ identifier ∧ ∃ off' r',
        getBTreeBranchNodeEntryOffset formatType e'.dataCap = .ok off' ∧
        recurse ⟨off'⟩ = .ok r' ∧ r'.identifier ≠ identifier) →
    e.identifier ≠ identifier →
    getBTreeBranchNodeEntryOffset formatType e.dataCap = .ok off →
    recurse ⟨off⟩ = .ok r → r.identifier = identifier →
    findBranchScan formatType identifier recurse (es₁ ++ e :: es₂) = .ok r := by
  intro es₁
  induction es₁ with
  | nil =>
    intro es₂ e r off _ hne hoff hrec hr
    rw [List.nil_append]
    unfold findBranchScan
    rw [if_neg hne, hoff]
    simp only
    rw [hrec]
    simp only
    rw [if_pos hr]
  | cons a es₁ ih =>
    intro es₂ e r off hearlier hne hoff hrec hr
    obtain ⟨hane, off', r', hoff', hrec', hr'⟩ := hearlier a (List.mem_cons_self _ _)
    rw [List.cons_append]
    unfold findBranchScan
    rw [if_neg hane, hoff']
    simp only
    rw [hrec']
    simp only
    rw [if_neg hr']
    exact ih es₂ e r off (fun e' he' => hearlier e' (List.mem_cons_of_mem a he'))
      hne hoff hrec hr

theorem pffRead_set_outside (file : List Nat) (p v n : Nat) (off : Int)
    (h0 : 0 ≤ off) (hp : p < off.toNat ∨ off.toNat + n ≤ p) :
    pffRead (file.set p v) n off = pffRead file n off := by
  unfold pffRead
  rw [if_neg (by omega : ¬ off < 0), if_neg (by omega : ¬ off < 0)]
  by_cases hn : n = 0
  · rw [if_pos hn, if_pos hn]
  · rw [if_neg hn, if_neg hn]
    simp only [List.length_set]
    by_cases hlen : file.length ≤ off.toNat
    · rw [if_pos hlen, if_pos hlen]
    · rw [if_neg hlen, if_neg hlen]
      congr 1
      congr 1
      apply List.ext_getElem
      · simp
      · intro i h1 h2
        have hi1 : i < n := by
          simp only [List.length_take, List.length_drop, List.length_set] at h1
          omega
        rw [List.getElem_take, List.getElem_take, List.getElem_drop,
          List.getElem_drop, List.getElem_set_ne (by omega : p ≠ off.toNat + i)]

theorem pffRead_set_okShape (file : List Nat) (p v n : Nat) (off : Int)
    {bs : List Nat} (h : pffRead file n off = .ok bs) :
    ∃ bs', pffRead (file.set p v) n off = .ok bs' := by
  unfold pffRead at h ⊢
  split_ifs at h with h1 h2 h3
  · exact ⟨[], by rw [if_neg h1, if_pos h2]⟩
  · exact ⟨((file.set p v).drop off.toNat).take n ++
      List.replicate (n - ((file.set p v).length - off.toNat)) 0, by
      rw [if_neg h1, if_neg h2,
        if_neg (by simpa only [List.length_set] using h3)]⟩

/-! Claim theorems. -/

/-- C2: within `FindBTreeNode`, a failure of the recursive descent is not
surfaced: at `cf2` the child page read fails with an end-of-file error (first
conjunct), yet the enclosing walk returns the zero entry with a nil error
(second conjunct) — the source's branch loop turns a recursive error into
`return BTreeNodeEntry{}, nil`, contradicting the claim that every inner
failure is propagated to the caller. -/
theorem c2_error_swallowed :
    findBTreeNode cf2 FormatType64 ⟨100000⟩ 42 1 = .error .eof ∧
    findBTreeNode cf2 FormatType64 ⟨0⟩ 42 2 = .ok zeroBTreeNodeEntry := by
  decide

/-- C3: every error-free result of `FindBTreeNode` is either the zero entry
(the sentinel returned when the identifier is absent — its `Data` slice is
nil, so its capacity view is empty) or an entry parsed from a page, which
matched the searched identifier and whose `Data` slice keeps at least eight
bytes of backing page. The not-found outcome is therefore error-free and
distinguishable from every successful match, including a match on
identifier 0, whose `Data` slice is never nil. -/
theorem c3_notfound_distinct : ∀ (fuel : Nat) (file : List Nat) (formatType : String)
    (btreeNode : BTreeNode) (identifier : Int) (e : BTreeNodeEntry),
    findBTreeNode file formatType btreeNode identifier fuel = .ok e →
    e = zeroBTreeNodeEntry ∨
      (e.identifier = identifier ∧ 8 ≤ e.dataCap.length ∧ e ≠ zeroBTreeNodeEntry) := by
  intro fuel
  induction fuel with
  | zero =>
    intro file formatType btreeNode identifier e h
    unfold findBTreeNode at h
    simp at h
  | succ fuel ih =>
    intro file formatType btreeNode identifier e h
    unfold findBTreeNode at h
    cases hes : getBTreeNodeEntries file formatType btreeNode with
    | error er => rw [hes] at h; simp at h
    | ok entries =>
      rw [hes] at h
      simp only at h
      cases hl : getBTreeNodeLevel file formatType btreeNode with
      | error er => rw [hl] at h; simp at h
      | ok level =>
        rw [hl] at h
        simp only at h
        split_ifs at h with hlpos
        · rcases findBranchScan_ok formatType identifier _
            (fun nd e' h' =>
              (ih file formatType nd identifier e' h').imp id (fun hh => ⟨hh.1, hh.2.1⟩))
            entries
            (fun e' he' => (getBTreeNodeEntries_shape hes e' he').2) e h with h1 | ⟨h2, h3⟩
          · exact Or.inl h1
          · refine Or.inr ⟨h2, h3, ?_⟩
            intro hz
            rw [hz] at h3
            simp [zeroBTreeNodeEntry] at h3
        · rcases findLeafScan_ok identifier entries e h with h1 | ⟨h2, h3⟩
          · exact Or.inl h1
          · have hlen := (getBTreeNodeEntries_shape hes e h2).2
            refine Or.inr ⟨h3, hlen, ?_⟩
            intro hz
            rw [hz] at hlen
            simp [zeroBTreeNodeEntry] at hlen

/-- C3 witness: in the file `cf3`, whose single leaf holds identifier 7,
looking up the absent identifier 5 returns the zero entry without error,
and the characterization theorem applies to that concrete outcome. -/
theorem c3_witness :
    findBTreeNode cf3 FormatType64 ⟨0⟩ 5 2 = .ok zeroBTreeNodeEntry ∧
    (zeroBTreeNodeEntry = zeroBTreeNodeEntry ∨
      (zeroBTreeNodeEntry.identifier = 5 ∧ 8 ≤ zeroBTreeNodeEntry.dataCap.length ∧
        zeroBTreeNodeEntry ≠ zeroBTreeNodeEntry)) :=
  ⟨by decide,
    c3_notfound_distinct 2 cf3 FormatType64 ⟨0⟩ 5 zeroBTreeNodeEntry (by decide)⟩

/-- C6: `PFF.Read` ignores the byte count reported by `File.Read`: on a
four-byte file, a read of eight bytes at offset 0 returns an eight-byte
buffer whose tail is silently zero-padded, with no error — refuting the
claim that a short read fails rather than zero-padding. -/
theorem c6_short_read_zero_padded :
    pffRead [1, 2, 3, 4] 8 0 = .ok [1, 2, 3, 4, 0, 0, 0, 0] := by
  decide

/-- C7: the block-resolution step passes the identifier to the Block B-Tree
lookup unmasked. In `cf7` the entry's local-descriptors identifier is the
odd value 43 (first conjunct); the BBT holds the masked key 42, so the
source's `GetLocalDescriptors` misses it, receives the zero entry, and
faults reading `Data[8:16]` of a nil slice (second conjunct), while the
spec's masked resolution (`id & ~1`) succeeds (third conjunct) — refuting
the claim that the code masks the low bit off the BBT search key. -/
theorem c7_counterexample :
    getLocalDescriptorsIdentifier cf7entryOdd FormatType64 = .ok 43 ∧
    getLocalDescriptors cf7 FormatType64 cf7entryOdd 3 =
      .error (.runtimeFault "slice bounds out of range") ∧
    getLocalDescriptorsMasked cf7 FormatType64 cf7entryOdd 3 = .ok () := by
  decide

/-- C7 (amended): the source resolves the local-descriptors identifier
against the Block B-Tree with the identifier unchanged as the search key;
this agrees with the spec's masked resolution exactly when the identifier's
low internal/external bit is already clear. -/
theorem c7_masked_agrees_on_even (file : List Nat) (formatType : String)
    (btreeNodeEntry : BTreeNodeEntry) (fuel : Nat) (i : Int)
    (hid : getLocalDescriptorsIdentifier btreeNodeEntry formatType = .ok i)
    (heven : i.emod 2 = 0) :
    getLocalDescriptors file formatType btreeNodeEntry fuel =
      getLocalDescriptorsMasked file formatType btreeNodeEntry fuel := by
  have hmask : maskLowBit i = i := by
    unfold maskLowBit
    omega
  unfold getLocalDescriptors getLocalDescriptorsMasked
  rw [hid]
  simp only
  rw [hmask]

/-- C7 witness: for the entry of `cf7` carrying the even identifier 42, the
source's resolution and the spec's masked resolution coincide. -/
theorem c7_witness :
    getLocalDescriptors cf7 FormatType64 cf7entryEven 3 =
      getLocalDescriptorsMasked cf7 FormatType64 cf7entryEven 3 :=
  c7_masked_agrees_on_even cf7 FormatType64 cf7entryEven 3 42 (by decide) (by decide)

/-- C8 (amended): on the 64-bit profiles every parsed b-tree entry's
identifier equals the four-byte little-endian value at bytes 0..4 of the
entry (the source reads `Uint32(nodeEntry[:8])`), and in particular is
below 2^32 — so identifiers differing only above bit 31 collide. (The parse
loop is profile-independent, so the conclusion needs no case split.) -/
theorem c8_identifier_truncated_u32 (file : List Nat) (formatType : String)
    (btreeNode : BTreeNode) (es : List BTreeNodeEntry)
    (_hfmt : formatType = FormatType64 ∨ formatType = FormatType64With4k)
    (h : getBTreeNodeEntries file formatType btreeNode = .ok es) :
    ∀ e ∈ es, e.identifier = (u32val e.dataCap : Int) ∧ e.identifier < 2 ^ 32 := by
  intro e he
  have hs := getBTreeNodeEntries_shape h e he
  refine ⟨hs.1, ?_⟩
  rw [hs.1]
  exact_mod_cast u32val_lt e.dataCap

/-- C8 witness: the single entry of `cf3` is parsed with identifier 7, equal
to the u32 at its first four bytes and below 2^32. -/
theorem c8_witness :
    getBTreeNodeEntries cf3 FormatType64 ⟨0⟩ = .ok [cf3e7] ∧
    cf3e7.identifier = (u32val cf3e7.dataCap : Int) ∧ cf3e7.identifier < 2 ^ 32 :=
  ⟨by decide,
    c8_identifier_truncated_u32 cf3 FormatType64 ⟨0⟩ [cf3e7] (Or.inl rfl)
      (by decide) cf3e7 (by simp)⟩

/-- C8: in `cf8` the entry's eight little-endian bytes encode the 64-bit
identifier 2^32 = 4294967296, but the parsed identifier is 0 — the full
eight-byte value is not used, refuting the claim that the identifier equals
the 8-byte little-endian integer at bytes 0..8. -/
theorem c8_counterexample :
    okIdentifiers (getBTreeNodeEntries cf8 FormatType64 ⟨0⟩) = some [0] ∧
    okFirstEntryU64 (getBTreeNodeEntries cf8 FormatType64 ⟨0⟩) = some 4294967296 := by
  decide

/-- C10: lookups are pure functions of the file bytes and the identifier: in
any sequence of lookups, both occurrences of an identifier `x` yield the
same result as the isolated lookup of `x`, and the surrounding unrelated
lookups contribute their own results independently. -/
theorem c10_lookup_deterministic_independent (file : List Nat) (formatType : String)
    (btreeNode : BTreeNode) (fuel : Nat) (x : Int) (pre mid post : List Int) :
    lookupMany file formatType btreeNode (pre ++ x :: (mid ++ x :: post)) fuel =
      lookupMany file formatType btreeNode pre fuel ++
        findBTreeNode file formatType btreeNode x fuel ::
          (lookupMany file formatType btreeNode mid fuel ++
            findBTreeNode file formatType btreeNode x fuel ::
              lookupMany file formatType btreeNode post fuel) := by
  simp [lookupMany]

theorem getBTreeNodeEntries64_eq (file : List Nat) (btreeNode : BTreeNode) :
    getBTreeNodeEntries file FormatType64 btreeNode =
      match pffRead file 488 btreeNode.startOffset with
      | .error e => .error e
      | .ok nodeEntries =>
        match getBTreeNodeEntryCount file FormatType64 btreeNode with
        | .error e => .error e
        | .ok nodeEntryCount =>
          match getBTreeNodeEntrySize file FormatType64 btreeNode with
          | .error e => .error e
          | .ok nodeEntrySize =>
            match getBTreeNodeLevel file FormatType64 btreeNode with
            | .error e => .error e
            | .ok _ =>
              match getBTreeNodePageType file FormatType64 btreeNode with
              | .error e => .error e
              | .ok _ =>
                parseBTreeNodeEntries nodeEntries nodeEntrySize nodeEntryCount 0 := rfl

theorem getBTreeNodeEntryCount64_eq (file : List Nat) (btreeNode : BTreeNode) :
    getBTreeNodeEntryCount file FormatType64 btreeNode =
      match pffRead file 1 (btreeNode.startOffset + 488) with
      | .error e => .error e
      | .ok bs => .ok (u8val bs) := rfl

theorem getBTreeNodeEntrySize64_eq (file : List Nat) (btreeNode : BTreeNode) :
    getBTreeNodeEntrySize file FormatType64 btreeNode =
      match pffRead file 1 (btreeNode.startOffset + 490) with
      | .error e => .error e
      | .ok bs => .ok (u8val bs) := rfl

theorem getBTreeNodeLevel64_eq (file : List Nat) (btreeNode : BTreeNode) :
    getBTreeNodeLevel file FormatType64 btreeNode =
      match pffRead file 1 (btreeNode.startOffset + 491) with
      | .error e => .error e
      | .ok bs => .ok (u8val bs) := rfl

theorem getBTreeNodePageType64_eq (file : List Nat) (btreeNode : BTreeNode) :
    getBTreeNodePageType file FormatType64 btreeNode =
      match pffRead file 1 (btreeNode.startOffset + 496) with
      | .error e => .error e
      | .ok bs => .ok (u8val bs) := rfl

theorem fmt32_ne_64 : FormatType32 ≠ FormatType64 := by decide

theorem fmt32_ne_4k : FormatType32 ≠ FormatType64With4k := by decide

theorem fmt64_ne_4k : FormatType64 ≠ FormatType64With4k := by decide

/-- C9: `GetFormatType` accepts exactly the little-endian u16 codes at
header offset 10 in 14, 15 (32-bit), 21, 23 (64-bit) and 36
(64-bit-with-4k), and returns its unknown-format error for every other
code. -/
theorem c9_format_type_enumeration (header : List Nat) (h12 : 12 ≤ header.length) :
    (getFormatType header = .ok FormatType32 ↔
      (u16val (header.drop 10) = 14 ∨ u16val (header.drop 10) = 15)) ∧
    (getFormatType header = .ok FormatType64 ↔
      (u16val (header.drop 10) = 21 ∨ u16val (header.drop 10) = 23)) ∧
    (getFormatType header = .ok FormatType64With4k ↔ u16val (header.drop 10) = 36) ∧
    (¬(u16val (header.drop 10) = 14 ∨ u16val (header.drop 10) = 15 ∨
        u16val (header.drop 10) = 21 ∨ u16val (header.drop 10) = 23 ∨
        u16val (header.drop 10) = 36) →
      getFormatType header = .error (.goMsg "failed to get format type")) := by
  have hne : ¬ header.length < 12 := by omega
  unfold getFormatType
  rw [if_neg hne]
  simp only
  split_ifs with h1 h2 h3
  · refine ⟨iff_of_true rfl h1, ?_, ?_, ?_⟩
    · exact iff_of_false (fun hh => fmt32_ne_64 (Except.ok.inj hh)) (by omega)
    · exact iff_of_false (fun hh => fmt32_ne_4k (Except.ok.inj hh)) (by omega)
    · intro hcc
      exact absurd h1 (by omega)
  · refine ⟨?_, iff_of_true rfl h2, ?_, ?_⟩
    · exact iff_of_false (fun hh => fmt32_ne_64 (Except.ok.inj hh).symm) (by omega)
    · exact iff_of_false (fun hh => fmt64_ne_4k (Except.ok.inj hh)) (by omega)
    · intro hcc
      exact absurd h2 (by omega)
  · refine ⟨?_, ?_, iff_of_true rfl h3, ?_⟩
    · exact iff_of_false (fun hh => fmt32_ne_4k (Except.ok.inj hh).symm) (by omega)
    · exact iff_of_false (fun hh => fmt64_ne_4k (Except.ok.inj hh).symm) (by omega)
    · intro hcc
      exact absurd h3 (by omega)
  · refine ⟨?_, ?_, ?_, fun _ => rfl⟩
    · exact iff_of_false (by simp) (by omega)
    · exact iff_of_false (by simp) (by omega)
    · exact iff_of_false (by simp) (by omega)

/-- C9 witness: the concrete header `c9header` carries the code 23 at
offset 10 and is classified as the 64-bit format. -/
theorem c9_witness : getFormatType c9header = .ok FormatType64 :=
  ((c9_format_type_enumeration c9header (by decide)).2.1).mpr (by decide)

/-- C1: in `cf1` the root branch holds keys 10 and 20 and the search key is
15, so last-≤ predecessor descent enters only the child of key 10 and
reports not-found (second and fourth conjuncts); the source's walker
nevertheless returns an entry with identifier 15 (first conjunct), found
under the sibling branch key 20 > 15 — refuting the claim that the walker
descends into exactly one child per level and never visits a sibling
subtree that cannot contain the key. -/
theorem c1_counterexample :
    okIdentifier (findBTreeNode cf1 FormatType64 ⟨0⟩ 15 6) = some 15 ∧
    findBTreeNodeSpec cf1 FormatType64 ⟨0⟩ 15 6 = .ok none ∧
    okIdentifiers (getBTreeNodeEntries cf1 FormatType64 ⟨0⟩) = some [10, 20] ∧
    findBTreeNode cf1 FormatType64 ⟨500⟩ 15 5 = .ok zeroBTreeNodeEntry := by
  decide

/-- C1 (amended): at a branch level the walker scans the entries in order
and recurses into each entry's child in turn, returning the first recursive
result that bears the search identifier — regardless of the branch keys, so
it can visit and return results from sibling subtrees whose key exceeds the
search key. Precisely: if every earlier branch entry has a different
identifier and its child lookup returns (error-free) an entry without the
search identifier, and entry `e`'s child lookup finds `r` with the search
identifier, the walk returns `r`. -/
theorem c1_sequential_child_scan (file : List Nat) (formatType : String)
    (btreeNode : BTreeNode) (identifier : Int) (fuel : Nat)
    (es₁ es₂ : List BTreeNodeEntry) (e r : BTreeNodeEntry) (level : Nat) (off : Int)
    (hes : getBTreeNodeEntries file formatType btreeNode = .ok (es₁ ++ e :: es₂))
    (hl : getBTreeNodeLevel file formatType btreeNode = .ok level)
    (hlpos : 0 < level)
    (hearlier : ∀ e' ∈ es₁, e'.identifier ≠ identifier ∧ ∃ off' r',
        getBTreeBranchNodeEntryOffset formatType e'.dataCap = .ok off' ∧
        findBTreeNode file formatType ⟨off'⟩ identifier fuel = .ok r' ∧
        r'.identifier ≠ identifier)
    (hne : e.identifier ≠ identifier)
    (hoff : getBTreeBranchNodeEntryOffset formatType e.dataCap = .ok off)
    (hrec : findBTreeNode file formatType ⟨off⟩ identifier fuel = .ok r)
    (hrid : r.identifier = identifier) :
    findBTreeNode file formatType btreeNode identifier (fuel + 1) = .ok r := by
  have hscan := findBranchScan_first_success formatType identifier
    (fun nd => findBTreeNode file formatType nd identifier fuel) es₁ es₂ e r off
    hearlier hne hoff hrec hrid
  unfold findBTreeNode
  rw [hes]
  simp only
  rw [hl]
  simp only
  rw [if_pos hlpos]
  exact hscan

/-- C1 witness: in `cf1`, searching 15 from the root at fuel 5+1: the first
branch entry (key 10) has a different identifier and its child lookup
returns the zero entry, the second branch entry (key 20) has a different
identifier, and its child lookup finds the entry with identifier 15, which
the walk returns. -/
theorem c1_witness : findBTreeNode cf1 FormatType64 ⟨0⟩ 15 (5 + 1) = .ok cf1e15 := by
  refine c1_sequential_child_scan cf1 FormatType64 ⟨0⟩ 15 5 [cf1e10] [] cf1e20 cf1e15
    1 1000 (by decide) (by decide) (by decide) ?_ (by decide) (by decide) (by decide)
    (by decide)
  intro e' he'
  rw [List.mem_singleton] at he'
  subst he'
  exact ⟨by decide, 500, zeroBTreeNodeEntry, by decide, by decide, by decide⟩

/-- C4: the page of `cf4` declares 30 entries of 24 bytes — 720 bytes,
overflowing the 488-byte entry area — and `GetBTreeNodeEntries` faults with
a slice-bounds runtime fault (the Go code would panic) instead of returning
a structured error value, refuting the claim that the reader never faults
and reports a `StructuralError` for such pages. -/
theorem c4_counterexample :
    getBTreeNodeEntryCount cf4 FormatType64 ⟨0⟩ = .ok 30 ∧
    getBTreeNodeEntrySize cf4 FormatType64 ⟨0⟩ = .ok 24 ∧
    getBTreeNodeEntries cf4 FormatType64 ⟨0⟩ =
      .error (.runtimeFault "slice bounds out of range") := by
  decide

/-- C4 (amended): on the 64-bit profile, whenever the page and footer reads
succeed and the declared entry count times entry size exceeds the 488-byte
entry area, `GetBTreeNodeEntries` faults with the slice-bounds runtime
fault (a Go panic) — no structured error value is produced. -/
theorem c4_entry_overflow_faults (file : List Nat) (btreeNode : BTreeNode)
    (page : List Nat) (c s l t : Nat)
    (hpage : pffRead file 488 btreeNode.startOffset = .ok page)
    (hc : getBTreeNodeEntryCount file FormatType64 btreeNode = .ok c)
    (hs : getBTreeNodeEntrySize file FormatType64 btreeNode = .ok s)
    (hl : getBTreeNodeLevel file FormatType64 btreeNode = .ok l)
    (ht : getBTreeNodePageType file FormatType64 btreeNode = .ok t)
    (hover : 488 < c * s) :
    getBTreeNodeEntries file FormatType64 btreeNode =
      .error (.runtimeFault "slice bounds out of range") := by
  have hlen : page.length = 488 := pffRead_ok_length hpage
  have hcpos : 1 ≤ c := by
    rcases Nat.eq_zero_or_pos c with rfl | h
    · simp at hover
    · exact h
  have hlast : (c - 1) * s + s = c * s := by
    cases c with
    | zero => omega
    | succ n => simp [Nat.succ_sub_one, Nat.succ_mul]
  have hfault := parseBTreeNodeEntries_fault page s c 0
    ⟨c - 1, by omega, by omega, Or.inl (by omega)⟩
  rw [getBTreeNodeEntries64_eq]
  simp only [hpage, hc, hs, hl, ht]
  exact hfault

/-- C4 witness: the amended theorem applied to the concrete overflowing page
of `cf4` (30 entries of 24 bytes in a 488-byte area). -/
theorem c4_witness :
    getBTreeNodeEntries cf4 FormatType64 ⟨0⟩ =
      .error (.runtimeFault "slice bounds out of range") :=
  c4_entry_overflow_faults cf4 ⟨0⟩ cf4page 30 24 0 129 (by decide) (by decide)
    (by decide) (by decide) (by decide) (by decide)

/-- C5: the page of `cf5` carries page type 0 — neither the NBT type 0x81
nor the BBT type 0x80 (middle conjuncts) — yet the traversal completes and
finds identifier 7 without any page-type-mismatch failure, refuting the
claim that the walker verifies the page type and fails on a mismatch. -/
theorem c5_counterexample :
    getBTreeNodePageType cf5 FormatType64 ⟨0⟩ = .ok 0 ∧
    (0 : Nat) ≠ 129 ∧ (0 : Nat) ≠ 128 ∧
    okIdentifier (findBTreeNode cf5 FormatType64 ⟨0⟩ 7 2) = some 7 := by
  decide

/-- C5 (amended): the page reader reads the page-type byte of each visited
page but only checks that the read itself succeeds, never the value:
overwriting the page-type byte (offset start+496 on the 64-bit profile)
with an arbitrary value leaves the result of `GetBTreeNodeEntries`
unchanged, so no page-type mismatch can ever fail the traversal. -/
theorem c5_pagetype_not_consulted (file : List Nat) (btreeNode : BTreeNode)
    (v t : Nat) (h0 : 0 ≤ btreeNode.startOffset)
    (ht : getBTreeNodePageType file FormatType64 btreeNode = .ok t) :
    getBTreeNodeEntries (file.set (btreeNode.startOffset.toNat + 496) v)
        FormatType64 btreeNode =
      getBTreeNodeEntries file FormatType64 btreeNode := by
  have hw : ∃ w, pffRead file 1 (btreeNode.startOffset + 496) = .ok w := by
    rw [getBTreeNodePageType64_eq] at ht
    cases hr : pffRead file 1 (btreeNode.startOffset + 496) with
    | error e => rw [hr] at ht; simp at ht
    | ok w => exact ⟨w, rfl⟩
  obtain ⟨w, hw⟩ := hw
  obtain ⟨w', hw'⟩ := pffRead_set_okShape file
    (btreeNode.startOffset.toNat + 496) v 1 (btreeNode.startOffset + 496) hw
  have hptL : getBTreeNodePageType (file.set (btreeNode.startOffset.toNat + 496) v)
      FormatType64 btreeNode = .ok (u8val w') := by
    rw [getBTreeNodePageType64_eq, hw']
  have hcount : getBTreeNodeEntryCount (file.set (btreeNode.startOffset.toNat + 496) v)
      FormatType64 btreeNode = getBTreeNodeEntryCount file FormatType64 btreeNode := by
    rw [getBTreeNodeEntryCount64_eq, getBTreeNodeEntryCount64_eq,
      pffRead_set_outside file _ v 1 (btreeNode.startOffset + 488) (by omega)
        (by omega)]
  have hsize : getBTreeNodeEntrySize (file.set (btreeNode.startOffset.toNat + 496) v)
      FormatType64 btreeNode = getBTreeNodeEntrySize file FormatType64 btreeNode := by
    rw [getBTreeNodeEntrySize64_eq, getBTreeNodeEntrySize64_eq,
      pffRead_set_outside file _ v 1 (btreeNode.startOffset + 490) (by omega)
        (by omega)]
  have hlevel : getBTreeNodeLevel (file.set (btreeNode.startOffset.toNat + 496) v)
      FormatType64 btreeNode = getBTreeNodeLevel file FormatType64 btreeNode := by
    rw [getBTreeNodeLevel64_eq, getBTreeNodeLevel64_eq,
      pffRead_set_outside file _ v 1 (btreeNode.startOffset + 491) (by omega)
        (by omega)]
  have hpage : pffRead (file.set (btreeNode.startOffset.toNat + 496) v) 488
      btreeNode.startOffset = pffRead file 488 btreeNode.startOffset :=
    pffRead_set_outside file _ v 488 btreeNode.startOffset h0 (by omega)
  rw [getBTreeNodeEntries64_eq, getBTreeNodeEntries64_eq]
  simp only [hpage, hcount, hsize, hlevel, hptL, ht]

/-- C5 witness: overwriting the page-type byte of `cf5` with the NBT page
type 0x81 leaves the parsed entries unchanged. -/
theorem c5_witness :
    getBTreeNodeEntries (cf5.set ((0 : Int).toNat + 496) 129) FormatType64 ⟨0⟩ =
      getBTreeNodeEntries cf5 FormatType64 ⟨0⟩ :=
  c5_pagetype_not_consulted cf5 ⟨0⟩ 129 0 (by decide) (by decide)

end GoPff
